import Mathlib

/-
Shallow embedding of the swiftsc-analyzer security pass (src/security.rs).

The AST types live in the external `swiftsc_frontend` crate (excluded from
this repository by design); they are reconstructed here from the shapes that
src/security.rs pattern-matches and from the data model the specification
describes.  Constructor kinds the analyzer never inspects are collapsed into
a single `other` constructor in each type, which the embedding treats as a
no-op exactly as the Rust catch-all `_ => {}` arms do.  Rust's
`HashSet<String>` is modelled as a duplicate-free list with insertion-order
iteration (`hsInsert`); the analyzed properties below depend only on set
membership, never on iteration order.
-/

namespace SwiftSC

/-- Source span attached to every AST node (external `source` infrastructure;
only carried through to warnings, never inspected). -/
structure Span where
  start : Nat
  stop : Nat
deriving DecidableEq, Repr

/-- `Span::new(start, stop)`. -/
def Span.new (s e : Nat) : Span := ⟨s, e⟩

/-- Binary operators distinguished by src/security.rs: `Assign` (reentrancy
and initialization checks), `Add`/`Sub`/`Mul` (arithmetic check); every other
operator falls into the catch-all and is collapsed to `other`. -/
inductive BinaryOp where
  | add
  | sub
  | mul
  | assign
  | other
deriving DecidableEq, Repr

/-- Rust `format!("{:?}", op)`; only `add`/`sub`/`mul` ever reach it in
src/security.rs (line 195). -/
def BinaryOp.debug_str : BinaryOp → String
  | .add => "Add"
  | .sub => "Sub"
  | .mul => "Mul"
  | .assign => "Assign"
  | .other => "Other"

mutual
/-- `ExpressionKind` fused with its carrier struct `Expression { kind, span }`:
each constructor carries the node's `Span` as its last argument.  The
constructors are exactly those src/security.rs dispatches on
(lines 171-244), plus `otherExpr` for the catch-all. -/
inductive Expression where
  | binary (left : Expression) (op : BinaryOp) (right : Expression) (span : Span)
  | call (func : Expression) (args : List Expression) (span : Span)
  | fieldAccess (obj : Expression) (field : String) (span : Span)
  | index (obj : Expression) (idx : Expression) (span : Span)
  | matchE (value : Expression) (arms : List MatchArm) (span : Span)
  | structInit (fields : List (String × Expression)) (span : Span)
  | tryE (inner : Expression) (span : Span)
  | genericInst (target : Expression) (span : Span)
  | identifier (name : String) (span : Span)
  | otherExpr (span : Span)

/-- A match arm; src/security.rs visits only `arm.body` (line 229), so only
the body is modelled. -/
inductive MatchArm where
  | mk (body : Expression)
end

/-- The `span` field of the fused `Expression` struct. -/
def Expression.span : Expression → Span
  | .binary _ _ _ sp => sp
  | .call _ _ sp => sp
  | .fieldAccess _ _ sp => sp
  | .index _ _ sp => sp
  | .matchE _ _ sp => sp
  | .structInit _ sp => sp
  | .tryE _ sp => sp
  | .genericInst _ sp => sp
  | .identifier _ sp => sp
  | .otherExpr sp => sp

/-- `StatementKind` fused with `Statement { kind, span }`; a `Block` is its
statement list (`Block { stmts }`).  Constructors are those dispatched in
src/security.rs lines 136-168, plus `otherStmt` for the catch-all
(which also covers `Return(None)` explicitly here). -/
inductive Statement where
  | letS (init : Expression) (span : Span)
  | exprS (e : Expression) (span : Span)
  | ret (e : Option Expression) (span : Span)
  | ifS (condition : Expression) (thenBranch : List Statement)
      (elseBranch : Option (List Statement)) (span : Span)
  | whileS (condition : Expression) (body : List Statement) (span : Span)
  | forS (startE : Expression) (stopE : Expression) (body : List Statement) (span : Span)
  | otherStmt (span : Span)

/-- The `span` field of the fused `Statement` struct. -/
def Statement.span : Statement → Span
  | .letS _ sp => sp
  | .exprS _ sp => sp
  | .ret _ sp => sp
  | .ifS _ _ _ sp => sp
  | .whileS _ _ sp => sp
  | .forS _ _ _ sp => sp
  | .otherStmt sp => sp

/-- A function: a name and a body block (`func.body.stmts` is modelled as the
list itself). -/
structure Function where
  name : String
  body : List Statement

/-- A declared storage field; src/security.rs consults only the name. -/
structure StorageField where
  name : String
  ty : String

/-- Contract members dispatched by src/security.rs lines 70-98. -/
inductive ContractMember where
  | storage (fields : List StorageField)
  | init (func : Function)
  | function (func : Function)
  | otherMember

/-- A contract: name plus ordered members. -/
structure Contract where
  name : String
  members : List ContractMember

/-- Top-level items dispatched by `analyze_program` (lines 60-68). -/
inductive Item where
  | contract (c : Contract)
  | function (f : Function)
  | otherItem

/-- A program: ordered top-level items. -/
structure Program where
  items : List Item

/-- `SecurityWarning` variants with their payloads (src/security.rs
lines 3-9). -/
inductive SecurityWarning where
  | PotentialOverflow (operation : String) (span : Span)
  | UninitializedVariable (name : String) (span : Span)
  | UncheckedArithmetic (operation : String) (span : Span)
  | PotentialReentrancy (message : String) (span : Span)
deriving DecidableEq, Repr

/-- `SecurityWarning::code` (src/security.rs lines 12-19). -/
def SecurityWarning.code : SecurityWarning → String
  | .PotentialOverflow _ _ => "SEC-003"
  | .UninitializedVariable _ _ => "SEC-004"
  | .UncheckedArithmetic _ _ => "SEC-003"
  | .PotentialReentrancy _ _ => "SEC-002"

/-- Discriminator for the `UninitializedVariable` variant. -/
def SecurityWarning.is_uninitialized : SecurityWarning → Bool
  | .UninitializedVariable _ _ => true
  | _ => false

/-- Discriminator for the `PotentialReentrancy` variant. -/
def SecurityWarning.is_reentrancy : SecurityWarning → Bool
  | .PotentialReentrancy _ _ => true
  | _ => false

/-- Discriminator for the `UncheckedArithmetic` variant. -/
def SecurityWarning.is_unchecked : SecurityWarning → Bool
  | .UncheckedArithmetic _ _ => true
  | _ => false

/-- Analyzer state (src/security.rs lines 39-43). -/
structure SecurityAnalyzer where
  warnings : List SecurityWarning
  external_call_seen : Bool
  current_function : Option String
deriving DecidableEq, Repr

/-- `SecurityAnalyzer::new` (lines 52-58). -/
def SecurityAnalyzer.new : SecurityAnalyzer :=
  { warnings := [], external_call_seen := false, current_function := none }

/-- `self.warnings.push(w)`. -/
def SecurityAnalyzer.push (a : SecurityAnalyzer) (w : SecurityWarning) : SecurityAnalyzer :=
  { a with warnings := a.warnings ++ [w] }

/-- `HashSet::insert` on the model of a string hash set: a duplicate-free
list in insertion order. -/
def hsInsert (s : List String) (x : String) : List String :=
  if x ∈ s then s else s ++ [x]

/-- `self.current_function.as_ref().map_or(false, |name|
name.starts_with("checked_") || name.starts_with("safe_"))`
(lines 189-191). -/
def is_safe_context : Option String → Bool
  | none => false
  | some name => name.startsWith "checked_" || name.startsWith "safe_"

/-- The reentrancy check inlined at the top of the `Binary` arm
(lines 174-185): if the operator is `Assign` and an external call has been
seen, and the left-hand side is `self.<field>`, push `PotentialReentrancy`. -/
def SecurityAnalyzer.reentrancy_check (a : SecurityAnalyzer) (left : Expression)
    (op : BinaryOp) (span : Span) : SecurityAnalyzer :=
  if op = BinaryOp.assign ∧ a.external_call_seen = true then
    match left with
    | .fieldAccess obj _ _ =>
      match obj with
      | .identifier name _ =>
        if name = "self" then
          a.push (.PotentialReentrancy
            "Detected state modification after potential external call" span)
        else a
      | _ => a
    | _ => a
  else a

/-- The arithmetic check in the `Binary` arm (lines 187-201): `Add`, `Sub`
and `Mul` push `UncheckedArithmetic` unless the enclosing function name has a
`checked_`/`safe_` prefix. -/
def SecurityAnalyzer.arithmetic_check (a : SecurityAnalyzer) (op : BinaryOp)
    (span : Span) : SecurityAnalyzer :=
  match op with
  | .add | .sub | .mul =>
    if is_safe_context a.current_function then a
    else a.push (.UncheckedArithmetic op.debug_str span)
  | _ => a

/-- The external-call detection in the `Call` arm (lines 205-212): if the
callee is a field access whose object is a plain identifier other than
`self`, set `external_call_seen`. -/
def SecurityAnalyzer.call_flag_update (a : SecurityAnalyzer)
    (func : Expression) : SecurityAnalyzer :=
  match func with
  | .fieldAccess obj _ _ =>
    match obj with
    | .identifier name _ =>
      if name = "self" then a else { a with external_call_seen := true }
    | _ => a
  | _ => a

mutual
/-- `SecurityAnalyzer::analyze_expression` (lines 171-245). -/
def SecurityAnalyzer.analyze_expression (a : SecurityAnalyzer) :
    Expression → SecurityAnalyzer
  | .binary left op right span =>
    let a1 := a.reentrancy_check left op span
    let a2 := a1.arithmetic_check op span
    let a3 := a2.analyze_expression left
    a3.analyze_expression right
  | .call func args _ =>
    let a1 := a.call_flag_update func
    let a2 := a1.analyze_expression func
    a2.analyze_expr_list args
  | .fieldAccess obj _ _ => a.analyze_expression obj
  | .index obj idx _ => (a.analyze_expression obj).analyze_expression idx
  | .matchE value arms _ => (a.analyze_expression value).analyze_arm_list arms
  | .structInit fields _ => a.analyze_field_list fields
  | .tryE inner _ => a.analyze_expression inner
  | .genericInst target _ => a.analyze_expression target
  | .identifier _ _ => a
  | .otherExpr _ => a

/-- `for arg in args { self.analyze_expression(arg) }` (lines 215-217). -/
def SecurityAnalyzer.analyze_expr_list (a : SecurityAnalyzer) :
    List Expression → SecurityAnalyzer
  | [] => a
  | e :: rest => (a.analyze_expression e).analyze_expr_list rest

/-- `for arm in arms { self.analyze_expression(&arm.body) }` (lines 228-230). -/
def SecurityAnalyzer.analyze_arm_list (a : SecurityAnalyzer) :
    List MatchArm → SecurityAnalyzer
  | [] => a
  | .mk body :: rest => (a.analyze_expression body).analyze_arm_list rest

/-- `for (_, f_expr) in fields { self.analyze_expression(f_expr) }`
(lines 233-235). -/
def SecurityAnalyzer.analyze_field_list (a : SecurityAnalyzer) :
    List (String × Expression) → SecurityAnalyzer
  | [] => a
  | (_, e) :: rest => (a.analyze_expression e).analyze_field_list rest
end

mutual
/-- `SecurityAnalyzer::analyze_statement` (lines 136-169). -/
def SecurityAnalyzer.analyze_statement (a : SecurityAnalyzer) :
    Statement → SecurityAnalyzer
  | .letS init _ => a.analyze_expression init
  | .exprS e _ => a.analyze_expression e
  | .ret (some e) _ => a.analyze_expression e
  | .ret none _ => a
  | .ifS condition thenBranch elseBranch _ =>
    let a1 := (a.analyze_expression condition).analyze_block thenBranch
    match elseBranch with
    | some eb => a1.analyze_block eb
    | none => a1
  | .whileS condition body _ => (a.analyze_expression condition).analyze_block body
  | .forS startE stopE body _ =>
    ((a.analyze_expression startE).analyze_expression stopE).analyze_block body
  | .otherStmt _ => a

/-- `SecurityAnalyzer::analyze_block` (lines 130-134). -/
def SecurityAnalyzer.analyze_block (a : SecurityAnalyzer) :
    List Statement → SecurityAnalyzer
  | [] => a
  | s :: rest => (a.analyze_statement s).analyze_block rest
end

/-- `SecurityAnalyzer::analyze_function` (lines 123-128). -/
def SecurityAnalyzer.analyze_function (a : SecurityAnalyzer)
    (func : Function) : SecurityAnalyzer :=
  let a1 := { a with external_call_seen := false,
                     current_function := some func.name }
  let a2 := a1.analyze_block func.body
  { a2 with current_function := none }

/-- `SecurityAnalyzer::collect_initializations` (lines 101-121): a single
linear scan of the block's top-level statements for `self.<field> = _`. -/
def collect_initializations : List Statement → List String → List String
  | [], initialized => initialized
  | stmt :: rest, initialized =>
    let initialized :=
      match stmt with
      | .exprS (.binary left op _ _) _ =>
        if op = BinaryOp.assign then
          match left with
          | .fieldAccess obj field _ =>
            match obj with
            | .identifier name _ =>
              if name = "self" then hsInsert initialized field else initialized
            | _ => initialized
          | _ => initialized
        else initialized
      | _ => initialized
    collect_initializations rest initialized

/-- The storage-field collection phase of `analyze_contract` (lines 71-78). -/
def collect_storage_fields : List ContractMember → List String → List String
  | [], acc => acc
  | ContractMember.storage fields :: rest, acc =>
    collect_storage_fields rest (fields.foldl (fun s f => hsInsert s f.name) acc)
  | _ :: rest, acc => collect_storage_fields rest acc

/-- `func.body.stmts.first().map(|s| s.span).unwrap_or(Span::new(1, 1))`
(line 91). -/
def first_stmt_span : List Statement → Span
  | [] => Span.new 1 1
  | s :: _ => s.span

/-- The warning-emission loop over declared storage fields (lines 85-94):
one `UninitializedVariable` per field not in the initialized set. -/
def SecurityAnalyzer.push_uninitialized (a : SecurityAnalyzer)
    (initialized : List String) (sp : Span) : List String → SecurityAnalyzer
  | [] => a
  | field :: rest =>
    let a1 :=
      if field ∈ initialized then a
      else a.push (.UninitializedVariable
        ("Storage field \x27" ++ field ++ "\x27") sp)
    a1.push_uninitialized initialized sp rest

/-- The member-dispatch phase of `analyze_contract` (lines 80-98). -/
def SecurityAnalyzer.analyze_member_list (a : SecurityAnalyzer)
    (storage_fields : List String) : List ContractMember → SecurityAnalyzer
  | [] => a
  | ContractMember.init func :: rest =>
    let initialized := collect_initializations func.body []
    let a1 := a.push_uninitialized initialized (first_stmt_span func.body)
      storage_fields
    a1.analyze_member_list storage_fields rest
  | ContractMember.function func :: rest =>
    (a.analyze_function func).analyze_member_list storage_fields rest
  | _ :: rest => a.analyze_member_list storage_fields rest

/-- `SecurityAnalyzer::analyze_contract` (lines 70-99): collect declared
storage fields, then dispatch over members. -/
def SecurityAnalyzer.analyze_contract (a : SecurityAnalyzer)
    (c : Contract) : SecurityAnalyzer :=
  a.analyze_member_list (collect_storage_fields c.members []) c.members

/-- The item loop of `analyze_program` (lines 61-67). -/
def SecurityAnalyzer.analyze_items (a : SecurityAnalyzer) :
    List Item → SecurityAnalyzer
  | [] => a
  | Item.contract c :: rest => (a.analyze_contract c).analyze_items rest
  | Item.function f :: rest => (a.analyze_function f).analyze_items rest
  | Item.otherItem :: rest => a.analyze_items rest

/-- `SecurityAnalyzer::analyze_program` (lines 60-68). -/
def SecurityAnalyzer.analyze_program (a : SecurityAnalyzer)
    (p : Program) : SecurityAnalyzer :=
  a.analyze_items p.items

/-- `SecurityAnalyzer::get_warnings` (lines 247-249). -/
def SecurityAnalyzer.get_warnings (a : SecurityAnalyzer) : List SecurityWarning :=
  a.warnings

/-- `SecurityAnalyzer::has_critical_warnings` (lines 251-253). -/
def SecurityAnalyzer.has_critical_warnings (_ : SecurityAnalyzer) : Bool :=
  false

/-!
Specification-side characterizations.  The functions below recompute, as
pure functions of the input tree, the flag transitions and the warning lists
the analyzer's stateful traversal produces; the `..._eq` theorems further
down prove the traversal equal to them.
-/

/-- The per-call-site condition of lines 206-211: the callee is a field
access whose object is a plain identifier other than `self`. -/
def qualifying_callee : Expression → Bool
  | .fieldAccess obj _ _ =>
    match obj with
    | .identifier name _ => if name = "self" then false else true
    | _ => false
  | _ => false

mutual
/-- Whether traversing an expression ever sets `external_call_seen`. -/
def sets_flag : Expression → Bool
  | .binary l _ r _ => sets_flag l || sets_flag r
  | .call fn args _ => qualifying_callee fn || sets_flag fn || sets_flag_list args
  | .fieldAccess obj _ _ => sets_flag obj
  | .index o i _ => sets_flag o || sets_flag i
  | .matchE v arms _ => sets_flag v || sets_flag_arms arms
  | .structInit fs _ => sets_flag_fields fs
  | .tryE e _ => sets_flag e
  | .genericInst t _ => sets_flag t
  | .identifier _ _ => false
  | .otherExpr _ => false

/-- `sets_flag` over an argument list. -/
def sets_flag_list : List Expression → Bool
  | [] => false
  | e :: rest => sets_flag e || sets_flag_list rest

/-- `sets_flag` over match-arm bodies. -/
def sets_flag_arms : List MatchArm → Bool
  | [] => false
  | .mk b :: rest => sets_flag b || sets_flag_arms rest

/-- `sets_flag` over struct-initializer fields. -/
def sets_flag_fields : List (String × Expression) → Bool
  | [] => false
  | (_, e) :: rest => sets_flag e || sets_flag_fields rest
end

mutual
/-- Whether traversing a statement ever sets `external_call_seen`. -/
def sets_flag_stmt : Statement → Bool
  | .letS e _ => sets_flag e
  | .exprS e _ => sets_flag e
  | .ret (some e) _ => sets_flag e
  | .ret none _ => false
  | .ifS c t eb _ =>
    sets_flag c || sets_flag_block t ||
      (match eb with
       | some b => sets_flag_block b
       | none => false)
  | .whileS c b _ => sets_flag c || sets_flag_block b
  | .forS s e b _ => sets_flag s || sets_flag e || sets_flag_block b
  | .otherStmt _ => false

/-- `sets_flag_stmt` over a block. -/
def sets_flag_block : List Statement → Bool
  | [] => false
  | s :: rest => sets_flag_stmt s || sets_flag_block rest
end

/-- Warnings pushed by `reentrancy_check`, as a pure function of the
incoming flag. -/
def reentrancy_delta (flag : Bool) (left : Expression) (op : BinaryOp)
    (sp : Span) : List SecurityWarning :=
  if op = BinaryOp.assign ∧ flag = true then
    match left with
    | .fieldAccess obj _ _ =>
      match obj with
      | .identifier name _ =>
        if name = "self" then
          [.PotentialReentrancy
            "Detected state modification after potential external call" sp]
        else []
      | _ => []
    | _ => []
  else []

/-- Warnings pushed by `arithmetic_check`, as a pure function of the
enclosing function name. -/
def arith_delta (cf : Option String) (op : BinaryOp) (sp : Span) :
    List SecurityWarning :=
  match op with
  | .add | .sub | .mul =>
    if is_safe_context cf then []
    else [.UncheckedArithmetic op.debug_str sp]
  | _ => []

mutual
/-- The warnings `analyze_expression` appends, as a pure function of the
incoming flag and enclosing function name; the flag is threaded left to
right exactly as the traversal mutates it. -/
def expr_delta (flag : Bool) (cf : Option String) :
    Expression → List SecurityWarning
  | .binary l op r sp =>
    reentrancy_delta flag l op sp ++ arith_delta cf op sp
      ++ expr_delta flag cf l ++ expr_delta (flag || sets_flag l) cf r
  | .call fn args _ =>
    expr_delta (flag || qualifying_callee fn) cf fn
      ++ expr_list_delta (flag || qualifying_callee fn || sets_flag fn) cf args
  | .fieldAccess obj _ _ => expr_delta flag cf obj
  | .index o i _ => expr_delta flag cf o ++ expr_delta (flag || sets_flag o) cf i
  | .matchE v arms _ =>
    expr_delta flag cf v ++ arm_list_delta (flag || sets_flag v) cf arms
  | .structInit fs _ => field_list_delta flag cf fs
  | .tryE e _ => expr_delta flag cf e
  | .genericInst t _ => expr_delta flag cf t
  | .identifier _ _ => []
  | .otherExpr _ => []

/-- `expr_delta` over an argument list. -/
def expr_list_delta (flag : Bool) (cf : Option String) :
    List Expression → List SecurityWarning
  | [] => []
  | e :: rest => expr_delta flag cf e ++ expr_list_delta (flag || sets_flag e) cf rest

/-- `expr_delta` over match-arm bodies. -/
def arm_list_delta (flag : Bool) (cf : Option String) :
    List MatchArm → List SecurityWarning
  | [] => []
  | .mk b :: rest => expr_delta flag cf b ++ arm_list_delta (flag || sets_flag b) cf rest

/-- `expr_delta` over struct-initializer fields. -/
def field_list_delta (flag : Bool) (cf : Option String) :
    List (String × Expression) → List SecurityWarning
  | [] => []
  | (_, e) :: rest =>
    expr_delta flag cf e ++ field_list_delta (flag || sets_flag e) cf rest
end

mutual
/-- The warnings `analyze_statement` appends. -/
def stmt_delta (flag : Bool) (cf : Option String) :
    Statement → List SecurityWarning
  | .letS e _ => expr_delta flag cf e
  | .exprS e _ => expr_delta flag cf e
  | .ret (some e) _ => expr_delta flag cf e
  | .ret none _ => []
  | .ifS c t eb _ =>
    expr_delta flag cf c ++ block_delta (flag || sets_flag c) cf t ++
      (match eb with
       | some b => block_delta (flag || sets_flag c || sets_flag_block t) cf b
       | none => [])
  | .whileS c b _ => expr_delta flag cf c ++ block_delta (flag || sets_flag c) cf b
  | .forS s e b _ =>
    expr_delta flag cf s ++ expr_delta (flag || sets_flag s) cf e ++
      block_delta (flag || sets_flag s || sets_flag e) cf b
  | .otherStmt _ => []

/-- The warnings `analyze_block` appends. -/
def block_delta (flag : Bool) (cf : Option String) :
    List Statement → List SecurityWarning
  | [] => []
  | s :: rest =>
    stmt_delta flag cf s ++ block_delta (flag || sets_flag_stmt s) cf rest
end

/-- The warnings `analyze_function` appends: the traversal starts with a
cleared flag and the function's name as safe-context key. -/
def function_delta (f : Function) : List SecurityWarning :=
  block_delta false (some f.name) f.body

/-- The warnings `push_uninitialized` appends. -/
def uninit_delta (initialized : List String) (sp : Span) :
    List String → List SecurityWarning
  | [] => []
  | field :: rest =>
    (if field ∈ initialized then []
     else [.UninitializedVariable ("Storage field \x27" ++ field ++ "\x27") sp])
      ++ uninit_delta initialized sp rest

/-- The warnings the member-dispatch phase of `analyze_contract` appends. -/
def member_list_delta (storage_fields : List String) :
    List ContractMember → List SecurityWarning
  | [] => []
  | ContractMember.init func :: rest =>
    uninit_delta (collect_initializations func.body []) (first_stmt_span func.body)
        storage_fields
      ++ member_list_delta storage_fields rest
  | ContractMember.function func :: rest =>
    function_delta func ++ member_list_delta storage_fields rest
  | _ :: rest => member_list_delta storage_fields rest

/-- `external_call_seen` after the member-dispatch phase. -/
def member_list_flag (flag : Bool) : List ContractMember → Bool
  | [] => flag
  | ContractMember.function func :: rest =>
    member_list_flag (sets_flag_block func.body) rest
  | _ :: rest => member_list_flag flag rest

/-- `current_function` after the member-dispatch phase. -/
def member_list_cf (cf : Option String) : List ContractMember → Option String
  | [] => cf
  | ContractMember.function _ :: rest => member_list_cf none rest
  | _ :: rest => member_list_cf cf rest

/-- The warnings `analyze_contract` appends. -/
def contract_delta (c : Contract) : List SecurityWarning :=
  member_list_delta (collect_storage_fields c.members []) c.members

/-- The warnings the item loop of `analyze_program` appends: independent of
the analyzer's incoming state. -/
def items_delta : List Item → List SecurityWarning
  | [] => []
  | Item.contract c :: rest => contract_delta c ++ items_delta rest
  | Item.function f :: rest => function_delta f ++ items_delta rest
  | Item.otherItem :: rest => items_delta rest

/-- `external_call_seen` after the item loop. -/
def items_flag (flag : Bool) : List Item → Bool
  | [] => flag
  | Item.contract c :: rest => items_flag (member_list_flag flag c.members) rest
  | Item.function f :: rest => items_flag (sets_flag_block f.body) rest
  | Item.otherItem :: rest => items_flag flag rest

/-- `current_function` after the item loop. -/
def items_cf (cf : Option String) : List Item → Option String
  | [] => cf
  | Item.contract c :: rest => items_cf (member_list_cf cf c.members) rest
  | Item.function _ :: rest => items_cf none rest
  | Item.otherItem :: rest => items_cf cf rest

mutual
/-- Number of `Add`/`Sub`/`Mul` binary nodes an expression traversal
visits. -/
def arith_count : Expression → Nat
  | .binary l op r _ =>
    (match op with
     | .add | .sub | .mul => 1
     | _ => 0) + arith_count l + arith_count r
  | .call fn args _ => arith_count fn + arith_count_list args
  | .fieldAccess obj _ _ => arith_count obj
  | .index o i _ => arith_count o + arith_count i
  | .matchE v arms _ => arith_count v + arith_count_arms arms
  | .structInit fs _ => arith_count_fields fs
  | .tryE e _ => arith_count e
  | .genericInst t _ => arith_count t
  | .identifier _ _ => 0
  | .otherExpr _ => 0

/-- `arith_count` over an argument list. -/
def arith_count_list : List Expression → Nat
  | [] => 0
  | e :: rest => arith_count e + arith_count_list rest

/-- `arith_count` over match-arm bodies. -/
def arith_count_arms : List MatchArm → Nat
  | [] => 0
  | .mk b :: rest => arith_count b + arith_count_arms rest

/-- `arith_count` over struct-initializer fields. -/
def arith_count_fields : List (String × Expression) → Nat
  | [] => 0
  | (_, e) :: rest => arith_count e + arith_count_fields rest
end

mutual
/-- `arith_count` over a statement. -/
def arith_count_stmt : Statement → Nat
  | .letS e _ => arith_count e
  | .exprS e _ => arith_count e
  | .ret (some e) _ => arith_count e
  | .ret none _ => 0
  | .ifS c t eb _ =>
    arith_count c + arith_count_block t +
      (match eb with
       | some b => arith_count_block b
       | none => 0)
  | .whileS c b _ => arith_count c + arith_count_block b
  | .forS s e b _ => arith_count s + arith_count e + arith_count_block b
  | .otherStmt _ => 0

/-- `arith_count` over a block. -/
def arith_count_block : List Statement → Nat
  | [] => 0
  | s :: rest => arith_count_stmt s + arith_count_block rest
end

/-- Whether a statement is, at top level, an assignment `self.<f> = _` to
the given field — the exact shape `collect_initializations` recognizes. -/
def is_self_assign_of (s : Statement) (f : String) : Bool :=
  match s with
  | .exprS (.binary left op _ _) _ =>
    if op = BinaryOp.assign then
      match left with
      | .fieldAccess obj field _ =>
        match obj with
        | .identifier name _ => if name = "self" then field = f else false
        | _ => false
      | _ => false
    else false
  | _ => false

/-- Whether a top-level item is neither a contract nor a function, i.e. is
silently skipped by `analyze_program`. -/
def Item.is_skipped : Item → Bool
  | .contract _ => false
  | .function _ => false
  | .otherItem => true

/-! Characterization lemmas: the stateful traversal equals the pure delta
functions. -/

theorem reentrancy_check_eq (a : SecurityAnalyzer) (left : Expression)
    (op : BinaryOp) (sp : Span) :
    a.reentrancy_check left op sp =
      { a with warnings :=
          a.warnings ++ reentrancy_delta a.external_call_seen left op sp } := by
  obtain ⟨w, fl, cf⟩ := a
  unfold SecurityAnalyzer.reentrancy_check reentrancy_delta
  repeat' split
  all_goals simp_all [SecurityAnalyzer.push]

theorem arithmetic_check_eq (a : SecurityAnalyzer) (op : BinaryOp) (sp : Span) :
    a.arithmetic_check op sp =
      { a with warnings :=
          a.warnings ++ arith_delta a.current_function op sp } := by
  obtain ⟨w, fl, cf⟩ := a
  unfold SecurityAnalyzer.arithmetic_check arith_delta
  repeat' split
  all_goals simp_all [SecurityAnalyzer.push]

theorem call_flag_update_eq (a : SecurityAnalyzer) (func : Expression) :
    a.call_flag_update func =
      { a with external_call_seen :=
          a.external_call_seen || qualifying_callee func } := by
  obtain ⟨w, fl, cf⟩ := a
  unfold SecurityAnalyzer.call_flag_update qualifying_callee
  repeat' split
  all_goals simp_all

mutual
theorem analyze_expression_eq (a : SecurityAnalyzer) (e : Expression) :
    a.analyze_expression e =
      { warnings := a.warnings ++ expr_delta a.external_call_seen a.current_function e,
        external_call_seen := a.external_call_seen || sets_flag e,
        current_function := a.current_function } := by
  cases e with
  | binary l op r sp =>
    simp only [SecurityAnalyzer.analyze_expression, reentrancy_check_eq,
      arithmetic_check_eq]
    rw [analyze_expression_eq _ l, analyze_expression_eq _ r]
    simp [expr_delta, sets_flag, List.append_assoc, Bool.or_assoc]
  | call fn args sp =>
    simp only [SecurityAnalyzer.analyze_expression, call_flag_update_eq]
    rw [analyze_expression_eq _ fn, analyze_expr_list_eq _ args]
    simp [expr_delta, sets_flag, List.append_assoc, Bool.or_assoc]
  | fieldAccess obj fld sp =>
    simp only [SecurityAnalyzer.analyze_expression]
    rw [analyze_expression_eq _ obj]
    simp [expr_delta, sets_flag]
  | index o i sp =>
    simp only [SecurityAnalyzer.analyze_expression]
    rw [analyze_expression_eq _ o, analyze_expression_eq _ i]
    simp [expr_delta, sets_flag, List.append_assoc, Bool.or_assoc]
  | matchE v arms sp =>
    simp only [SecurityAnalyzer.analyze_expression]
    rw [analyze_expression_eq _ v, analyze_arm_list_eq _ arms]
    simp [expr_delta, sets_flag, List.append_assoc, Bool.or_assoc]
  | structInit fs sp =>
    simp only [SecurityAnalyzer.analyze_expression]
    rw [analyze_field_list_eq _ fs]
    simp [expr_delta, sets_flag]
  | tryE e sp =>
    simp only [SecurityAnalyzer.analyze_expression]
    rw [analyze_expression_eq _ e]
    simp [expr_delta, sets_flag]
  | genericInst t sp =>
    simp only [SecurityAnalyzer.analyze_expression]
    rw [analyze_expression_eq _ t]
    simp [expr_delta, sets_flag]
  | identifier nm sp =>
    simp [SecurityAnalyzer.analyze_expression, expr_delta, sets_flag]
  | otherExpr sp =>
    simp [SecurityAnalyzer.analyze_expression, expr_delta, sets_flag]

theorem analyze_expr_list_eq (a : SecurityAnalyzer) (es : List Expression) :
    a.analyze_expr_list es =
      { warnings := a.warnings ++ expr_list_delta a.external_call_seen a.current_function es,
        external_call_seen := a.external_call_seen || sets_flag_list es,
        current_function := a.current_function } := by
  cases es with
  | nil => simp [SecurityAnalyzer.analyze_expr_list, expr_list_delta, sets_flag_list]
  | cons e rest =>
    simp only [SecurityAnalyzer.analyze_expr_list]
    rw [analyze_expression_eq _ e, analyze_expr_list_eq _ rest]
    simp [expr_list_delta, sets_flag_list, List.append_assoc, Bool.or_assoc]

theorem analyze_arm_list_eq (a : SecurityAnalyzer) (arms : List MatchArm) :
    a.analyze_arm_list arms =
      { warnings := a.warnings ++ arm_list_delta a.external_call_seen a.current_function arms,
        external_call_seen := a.external_call_seen || sets_flag_arms arms,
        current_function := a.current_function } := by
  cases arms with
  | nil => simp [SecurityAnalyzer.analyze_arm_list, arm_list_delta, sets_flag_arms]
  | cons arm rest =>
    cases arm with
    | mk b =>
      simp only [SecurityAnalyzer.analyze_arm_list]
      rw [analyze_expression_eq _ b, analyze_arm_list_eq _ rest]
      simp [arm_list_delta, sets_flag_arms, List.append_assoc, Bool.or_assoc]

theorem analyze_field_list_eq (a : SecurityAnalyzer)
    (fs : List (String × Expression)) :
    a.analyze_field_list fs =
      { warnings := a.warnings ++ field_list_delta a.external_call_seen a.current_function fs,
        external_call_seen := a.external_call_seen || sets_flag_fields fs,
        current_function := a.current_function } := by
  cases fs with
  | nil => simp [SecurityAnalyzer.analyze_field_list, field_list_delta, sets_flag_fields]
  | cons f rest =>
    cases f with
    | mk nm e =>
      simp only [SecurityAnalyzer.analyze_field_list]
      rw [analyze_expression_eq _ e, analyze_field_list_eq _ rest]
      simp [field_list_delta, sets_flag_fields, List.append_assoc, Bool.or_assoc]
end

mutual
theorem analyze_statement_eq (a : SecurityAnalyzer) (s : Statement) :
    a.analyze_statement s =
      { warnings := a.warnings ++ stmt_delta a.external_call_seen a.current_function s,
        external_call_seen := a.external_call_seen || sets_flag_stmt s,
        current_function := a.current_function } := by
  cases s with
  | letS e sp =>
    simp only [SecurityAnalyzer.analyze_statement]
    rw [analyze_expression_eq]
    simp [stmt_delta, sets_flag_stmt]
  | exprS e sp =>
    simp only [SecurityAnalyzer.analyze_statement]
    rw [analyze_expression_eq]
    simp [stmt_delta, sets_flag_stmt]
  | ret oe sp =>
    cases oe with
    | some e =>
      simp only [SecurityAnalyzer.analyze_statement]
      rw [analyze_expression_eq]
      simp [stmt_delta, sets_flag_stmt]
    | none =>
      simp [SecurityAnalyzer.analyze_statement, stmt_delta, sets_flag_stmt]
  | ifS c t eb sp =>
    cases eb with
    | some b =>
      simp only [SecurityAnalyzer.analyze_statement]
      rw [analyze_expression_eq _ c, analyze_block_eq _ t, analyze_block_eq _ b]
      simp [stmt_delta, sets_flag_stmt, List.append_assoc, Bool.or_assoc]
    | none =>
      simp only [SecurityAnalyzer.analyze_statement]
      rw [analyze_expression_eq _ c, analyze_block_eq _ t]
      simp [stmt_delta, sets_flag_stmt, List.append_assoc, Bool.or_assoc]
  | whileS c b sp =>
    simp only [SecurityAnalyzer.analyze_statement]
    rw [analyze_expression_eq _ c, analyze_block_eq _ b]
    simp [stmt_delta, sets_flag_stmt, List.append_assoc, Bool.or_assoc]
  | forS st en b sp =>
    simp only [SecurityAnalyzer.analyze_statement]
    rw [analyze_expression_eq _ st, analyze_expression_eq _ en, analyze_block_eq _ b]
    simp [stmt_delta, sets_flag_stmt, List.append_assoc, Bool.or_assoc]
  | otherStmt sp =>
    simp [SecurityAnalyzer.analyze_statement, stmt_delta, sets_flag_stmt]

theorem analyze_block_eq (a : SecurityAnalyzer) (b : List Statement) :
    a.analyze_block b =
      { warnings := a.warnings ++ block_delta a.external_call_seen a.current_function b,
        external_call_seen := a.external_call_seen || sets_flag_block b,
        current_function := a.current_function } := by
  cases b with
  | nil => simp [SecurityAnalyzer.analyze_block, block_delta, sets_flag_block]
  | cons s rest =>
    simp only [SecurityAnalyzer.analyze_block]
    rw [analyze_statement_eq _ s, analyze_block_eq _ rest]
    simp [block_delta, sets_flag_block, List.append_assoc, Bool.or_assoc]
end

theorem analyze_function_eq (a : SecurityAnalyzer) (f : Function) :
    a.analyze_function f =
      { warnings := a.warnings ++ function_delta f,
        external_call_seen := sets_flag_block f.body,
        current_function := none } := by
  simp only [SecurityAnalyzer.analyze_function]
  rw [analyze_block_eq]
  simp [function_delta]

theorem push_uninitialized_eq (a : SecurityAnalyzer) (initialized : List String)
    (sp : Span) (fs : List String) :
    a.push_uninitialized initialized sp fs =
      { a with warnings := a.warnings ++ uninit_delta initialized sp fs } := by
  induction fs generalizing a with
  | nil => simp [SecurityAnalyzer.push_uninitialized, uninit_delta]
  | cons f rest ih =>
    simp only [SecurityAnalyzer.push_uninitialized, uninit_delta]
    by_cases h : f ∈ initialized <;>
      simp [h, ih, SecurityAnalyzer.push, List.append_assoc]

theorem analyze_member_list_eq (a : SecurityAnalyzer) (sf : List String)
    (ms : List ContractMember) :
    a.analyze_member_list sf ms =
      { warnings := a.warnings ++ member_list_delta sf ms,
        external_call_seen := member_list_flag a.external_call_seen ms,
        current_function := member_list_cf a.current_function ms } := by
  induction ms generalizing a with
  | nil =>
    simp [SecurityAnalyzer.analyze_member_list, member_list_delta,
      member_list_flag, member_list_cf]
  | cons m rest ih =>
    cases m with
    | storage fields =>
      simp only [SecurityAnalyzer.analyze_member_list]
      rw [ih]
      simp [member_list_delta, member_list_flag, member_list_cf]
    | init func =>
      simp only [SecurityAnalyzer.analyze_member_list]
      rw [push_uninitialized_eq, ih]
      simp [member_list_delta, member_list_flag, member_list_cf,
        List.append_assoc]
    | function func =>
      simp only [SecurityAnalyzer.analyze_member_list]
      rw [analyze_function_eq, ih]
      simp [member_list_delta, member_list_flag, member_list_cf,
        List.append_assoc]
    | otherMember =>
      simp only [SecurityAnalyzer.analyze_member_list]
      rw [ih]
      simp [member_list_delta, member_list_flag, member_list_cf]

theorem analyze_contract_eq (a : SecurityAnalyzer) (c : Contract) :
    a.analyze_contract c =
      { warnings := a.warnings ++ contract_delta c,
        external_call_seen := member_list_flag a.external_call_seen c.members,
        current_function := member_list_cf a.current_function c.members } := by
  simp only [SecurityAnalyzer.analyze_contract]
  rw [analyze_member_list_eq]
  simp [contract_delta]

theorem analyze_items_eq (a : SecurityAnalyzer) (items : List Item) :
    a.analyze_items items =
      { warnings := a.warnings ++ items_delta items,
        external_call_seen := items_flag a.external_call_seen items,
        current_function := items_cf a.current_function items } := by
  induction items generalizing a with
  | nil => simp [SecurityAnalyzer.analyze_items, items_delta, items_flag, items_cf]
  | cons item rest ih =>
    cases item with
    | contract c =>
      simp only [SecurityAnalyzer.analyze_items]
      rw [analyze_contract_eq, ih]
      simp [items_delta, items_flag, items_cf, List.append_assoc]
    | function f =>
      simp only [SecurityAnalyzer.analyze_items]
      rw [analyze_function_eq, ih]
      simp [items_delta, items_flag, items_cf, List.append_assoc]
    | otherItem =>
      simp only [SecurityAnalyzer.analyze_items]
      rw [ih]
      simp [items_delta, items_flag, items_cf]

theorem analyze_program_eq (a : SecurityAnalyzer) (p : Program) :
    a.analyze_program p =
      { warnings := a.warnings ++ items_delta p.items,
        external_call_seen := items_flag a.external_call_seen p.items,
        current_function := items_cf a.current_function p.items } := by
  simp only [SecurityAnalyzer.analyze_program]
  rw [analyze_items_eq]

/-! Counting lemmas for the `UncheckedArithmetic` variant. -/

theorem countP_unchecked_reentrancy_delta (flag : Bool) (left : Expression)
    (op : BinaryOp) (sp : Span) :
    (reentrancy_delta flag left op sp).countP SecurityWarning.is_unchecked = 0 := by
  unfold reentrancy_delta
  repeat' split
  all_goals simp [SecurityWarning.is_unchecked]

theorem countP_unchecked_arith_delta (cf : Option String) (op : BinaryOp) (sp : Span) :
    (arith_delta cf op sp).countP SecurityWarning.is_unchecked =
      if is_safe_context cf then 0
      else
        (match op with
         | .add | .sub | .mul => 1
         | _ => 0) := by
  unfold arith_delta
  cases op <;> by_cases h : is_safe_context cf <;>
    simp [h, SecurityWarning.is_unchecked]

mutual
theorem countP_unchecked_expr_delta (flag : Bool) (cf : Option String) (e : Expression) :
    (expr_delta flag cf e).countP SecurityWarning.is_unchecked =
      if is_safe_context cf then 0 else arith_count e := by
  cases e with
  | binary l op r sp =>
    rw [expr_delta]
    simp only [List.countP_append, countP_unchecked_reentrancy_delta,
      countP_unchecked_arith_delta, countP_unchecked_expr_delta flag cf l,
      countP_unchecked_expr_delta (flag || sets_flag l) cf r]
    by_cases h : is_safe_context cf <;> simp [h, arith_count]
  | call fn args sp =>
    rw [expr_delta]
    simp only [List.countP_append,
      countP_unchecked_expr_delta (flag || qualifying_callee fn) cf fn,
      countP_unchecked_expr_list_delta (flag || qualifying_callee fn || sets_flag fn) cf args]
    by_cases h : is_safe_context cf <;> simp [h, arith_count]
  | fieldAccess obj fld sp =>
    rw [expr_delta]
    rw [countP_unchecked_expr_delta flag cf obj]
    by_cases h : is_safe_context cf <;> simp [h, arith_count]
  | index o i sp =>
    rw [expr_delta]
    simp only [List.countP_append, countP_unchecked_expr_delta flag cf o,
      countP_unchecked_expr_delta (flag || sets_flag o) cf i]
    by_cases h : is_safe_context cf <;> simp [h, arith_count]
  | matchE v arms sp =>
    rw [expr_delta]
    simp only [List.countP_append, countP_unchecked_expr_delta flag cf v,
      countP_unchecked_arm_list_delta (flag || sets_flag v) cf arms]
    by_cases h : is_safe_context cf <;> simp [h, arith_count]
  | structInit fs sp =>
    rw [expr_delta]
    rw [countP_unchecked_field_list_delta flag cf fs]
    by_cases h : is_safe_context cf <;> simp [h, arith_count]
  | tryE e sp =>
    rw [expr_delta]
    rw [countP_unchecked_expr_delta flag cf e]
    by_cases h : is_safe_context cf <;> simp [h, arith_count]
  | genericInst t sp =>
    rw [expr_delta]
    rw [countP_unchecked_expr_delta flag cf t]
    by_cases h : is_safe_context cf <;> simp [h, arith_count]
  | identifier nm sp => simp [expr_delta, arith_count]
  | otherExpr sp => simp [expr_delta, arith_count]

theorem countP_unchecked_expr_list_delta (flag : Bool) (cf : Option String)
    (es : List Expression) :
    (expr_list_delta flag cf es).countP SecurityWarning.is_unchecked =
      if is_safe_context cf then 0 else arith_count_list es := by
  cases es with
  | nil => simp [expr_list_delta, arith_count_list]
  | cons e rest =>
    rw [expr_list_delta]
    simp only [List.countP_append, countP_unchecked_expr_delta flag cf e,
      countP_unchecked_expr_list_delta (flag || sets_flag e) cf rest]
    by_cases h : is_safe_context cf <;> simp [h, arith_count_list]

theorem countP_unchecked_arm_list_delta (flag : Bool) (cf : Option String)
    (arms : List MatchArm) :
    (arm_list_delta flag cf arms).countP SecurityWarning.is_unchecked =
      if is_safe_context cf then 0 else arith_count_arms arms := by
  cases arms with
  | nil => simp [arm_list_delta, arith_count_arms]
  | cons arm rest =>
    cases arm with
    | mk b =>
      rw [arm_list_delta]
      simp only [List.countP_append, countP_unchecked_expr_delta flag cf b,
        countP_unchecked_arm_list_delta (flag || sets_flag b) cf rest]
      by_cases h : is_safe_context cf <;> simp [h, arith_count_arms]

theorem countP_unchecked_field_list_delta (flag : Bool) (cf : Option String)
    (fs : List (String × Expression)) :
    (field_list_delta flag cf fs).countP SecurityWarning.is_unchecked =
      if is_safe_context cf then 0 else arith_count_fields fs := by
  cases fs with
  | nil => simp [field_list_delta, arith_count_fields]
  | cons f rest =>
    cases f with
    | mk nm e =>
      rw [field_list_delta]
      simp only [List.countP_append, countP_unchecked_expr_delta flag cf e,
        countP_unchecked_field_list_delta (flag || sets_flag e) cf rest]
      by_cases h : is_safe_context cf <;> simp [h, arith_count_fields]
end

mutual
theorem countP_unchecked_stmt_delta (flag : Bool) (cf : Option String) (s : Statement) :
    (stmt_delta flag cf s).countP SecurityWarning.is_unchecked =
      if is_safe_context cf then 0 else arith_count_stmt s := by
  cases s with
  | letS e sp =>
    rw [stmt_delta, countP_unchecked_expr_delta]
    by_cases h : is_safe_context cf <;> simp [h, arith_count_stmt]
  | exprS e sp =>
    rw [stmt_delta, countP_unchecked_expr_delta]
    by_cases h : is_safe_context cf <;> simp [h, arith_count_stmt]
  | ret oe sp =>
    cases oe with
    | some e =>
      rw [stmt_delta, countP_unchecked_expr_delta]
      by_cases h : is_safe_context cf <;> simp [h, arith_count_stmt]
    | none => simp [stmt_delta, arith_count_stmt]
  | ifS c t eb sp =>
    cases eb with
    | some b =>
      rw [stmt_delta]
      simp only [List.countP_append, countP_unchecked_expr_delta flag cf c,
        countP_unchecked_block_delta (flag || sets_flag c) cf t,
        countP_unchecked_block_delta (flag || sets_flag c || sets_flag_block t) cf b]
      by_cases h : is_safe_context cf <;> simp [h, arith_count_stmt]
    | none =>
      rw [stmt_delta]
      simp only [List.countP_append, countP_unchecked_expr_delta flag cf c,
        countP_unchecked_block_delta (flag || sets_flag c) cf t]
      by_cases h : is_safe_context cf <;> simp [h, arith_count_stmt]
  | whileS c b sp =>
    rw [stmt_delta]
    simp only [List.countP_append, countP_unchecked_expr_delta flag cf c,
      countP_unchecked_block_delta (flag || sets_flag c) cf b]
    by_cases h : is_safe_context cf <;> simp [h, arith_count_stmt]
  | forS st en b sp =>
    rw [stmt_delta]
    simp only [List.countP_append, countP_unchecked_expr_delta flag cf st,
      countP_unchecked_expr_delta (flag || sets_flag st) cf en,
      countP_unchecked_block_delta (flag || sets_flag st || sets_flag en) cf b]
    by_cases h : is_safe_context cf <;> simp [h, arith_count_stmt]
  | otherStmt sp => simp [stmt_delta, arith_count_stmt]

theorem countP_unchecked_block_delta (flag : Bool) (cf : Option String)
    (b : List Statement) :
    (block_delta flag cf b).countP SecurityWarning.is_unchecked =
      if is_safe_context cf then 0 else arith_count_block b := by
  cases b with
  | nil => simp [block_delta, arith_count_block]
  | cons s rest =>
    rw [block_delta]
    simp only [List.countP_append, countP_unchecked_stmt_delta flag cf s,
      countP_unchecked_block_delta (flag || sets_flag_stmt s) cf rest]
    by_cases h : is_safe_context cf <;> simp [h, arith_count_block]
end

theorem countP_unchecked_function_delta (f : Function) :
    (function_delta f).countP SecurityWarning.is_unchecked =
      if f.name.startsWith "checked_" || f.name.startsWith "safe_" then 0
      else arith_count_block f.body := by
  unfold function_delta
  rw [countP_unchecked_block_delta]
  simp [is_safe_context]

/-! Counting lemmas for the `UninitializedVariable` variant: function-body
traversals never emit it. -/

theorem countP_uninit_reentrancy_delta (flag : Bool) (left : Expression)
    (op : BinaryOp) (sp : Span) :
    (reentrancy_delta flag left op sp).countP SecurityWarning.is_uninitialized = 0 := by
  unfold reentrancy_delta
  repeat' split
  all_goals simp [SecurityWarning.is_uninitialized]

theorem countP_uninit_arith_delta (cf : Option String) (op : BinaryOp) (sp : Span) :
    (arith_delta cf op sp).countP SecurityWarning.is_uninitialized = 0 := by
  unfold arith_delta
  repeat' split
  all_goals simp [SecurityWarning.is_uninitialized]

mutual
theorem countP_uninit_expr_delta (flag : Bool) (cf : Option String) (e : Expression) :
    (expr_delta flag cf e).countP SecurityWarning.is_uninitialized = 0 := by
  cases e with
  | binary l op r sp =>
    rw [expr_delta]
    simp [List.countP_append, countP_uninit_reentrancy_delta,
      countP_uninit_arith_delta, countP_uninit_expr_delta flag cf l,
      countP_uninit_expr_delta (flag || sets_flag l) cf r]
  | call fn args sp =>
    rw [expr_delta]
    simp [List.countP_append,
      countP_uninit_expr_delta (flag || qualifying_callee fn) cf fn,
      countP_uninit_expr_list_delta (flag || qualifying_callee fn || sets_flag fn) cf args]
  | fieldAccess obj fld sp =>
    rw [expr_delta]
    exact countP_uninit_expr_delta flag cf obj
  | index o i sp =>
    rw [expr_delta]
    simp [List.countP_append, countP_uninit_expr_delta flag cf o,
      countP_uninit_expr_delta (flag || sets_flag o) cf i]
  | matchE v arms sp =>
    rw [expr_delta]
    simp [List.countP_append, countP_uninit_expr_delta flag cf v,
      countP_uninit_arm_list_delta (flag || sets_flag v) cf arms]
  | structInit fs sp =>
    rw [expr_delta]
    exact countP_uninit_field_list_delta flag cf fs
  | tryE e sp =>
    rw [expr_delta]
    exact countP_uninit_expr_delta flag cf e
  | genericInst t sp =>
    rw [expr_delta]
    exact countP_uninit_expr_delta flag cf t
  | identifier nm sp => simp [expr_delta]
  | otherExpr sp => simp [expr_delta]

theorem countP_uninit_expr_list_delta (flag : Bool) (cf : Option String)
    (es : List Expression) :
    (expr_list_delta flag cf es).countP SecurityWarning.is_uninitialized = 0 := by
  cases es with
  | nil => simp [expr_list_delta]
  | cons e rest =>
    rw [expr_list_delta]
    simp [List.countP_append, countP_uninit_expr_delta flag cf e,
      countP_uninit_expr_list_delta (flag || sets_flag e) cf rest]

theorem countP_uninit_arm_list_delta (flag : Bool) (cf : Option String)
    (arms : List MatchArm) :
    (arm_list_delta flag cf arms).countP SecurityWarning.is_uninitialized = 0 := by
  cases arms with
  | nil => simp [arm_list_delta]
  | cons arm rest =>
    cases arm with
    | mk b =>
      rw [arm_list_delta]
      simp [List.countP_append, countP_uninit_expr_delta flag cf b,
        countP_uninit_arm_list_delta (flag || sets_flag b) cf rest]

theorem countP_uninit_field_list_delta (flag : Bool) (cf : Option String)
    (fs : List (String × Expression)) :
    (field_list_delta flag cf fs).countP SecurityWarning.is_uninitialized = 0 := by
  cases fs with
  | nil => simp [field_list_delta]
  | cons f rest =>
    cases f with
    | mk nm e =>
      rw [field_list_delta]
      simp [List.countP_append, countP_uninit_expr_delta flag cf e,
        countP_uninit_field_list_delta (flag || sets_flag e) cf rest]
end

mutual
theorem countP_uninit_stmt_delta (flag : Bool) (cf : Option String) (s : Statement) :
    (stmt_delta flag cf s).countP SecurityWarning.is_uninitialized = 0 := by
  cases s with
  | letS e sp =>
    rw [stmt_delta]
    exact countP_uninit_expr_delta flag cf e
  | exprS e sp =>
    rw [stmt_delta]
    exact countP_uninit_expr_delta flag cf e
  | ret oe sp =>
    cases oe with
    | some e =>
      rw [stmt_delta]
      exact countP_uninit_expr_delta flag cf e
    | none => simp [stmt_delta]
  | ifS c t eb sp =>
    cases eb with
    | some b =>
      rw [stmt_delta]
      simp [List.countP_append, countP_uninit_expr_delta flag cf c,
        countP_uninit_block_delta (flag || sets_flag c) cf t,
        countP_uninit_block_delta (flag || sets_flag c || sets_flag_block t) cf b]
    | none =>
      rw [stmt_delta]
      simp [List.countP_append, countP_uninit_expr_delta flag cf c,
        countP_uninit_block_delta (flag || sets_flag c) cf t]
  | whileS c b sp =>
    rw [stmt_delta]
    simp [List.countP_append, countP_uninit_expr_delta flag cf c,
      countP_uninit_block_delta (flag || sets_flag c) cf b]
  | forS st en b sp =>
    rw [stmt_delta]
    simp [List.countP_append, countP_uninit_expr_delta flag cf st,
      countP_uninit_expr_delta (flag || sets_flag st) cf en,
      countP_uninit_block_delta (flag || sets_flag st || sets_flag en) cf b]
  | otherStmt sp => simp [stmt_delta]

theorem countP_uninit_block_delta (flag : Bool) (cf : Option String)
    (b : List Statement) :
    (block_delta flag cf b).countP SecurityWarning.is_uninitialized = 0 := by
  cases b with
  | nil => simp [block_delta]
  | cons s rest =>
    rw [block_delta]
    simp [List.countP_append, countP_uninit_stmt_delta flag cf s,
      countP_uninit_block_delta (flag || sets_flag_stmt s) cf rest]
end

theorem countP_uninit_function_delta (f : Function) :
    (function_delta f).countP SecurityWarning.is_uninitialized = 0 := by
  unfold function_delta
  exact countP_uninit_block_delta _ _ _

theorem countP_uninit_member_list_delta_no_init (sf : List String)
    (ms : List ContractMember)
    (h : ∀ func : Function, ContractMember.init func ∉ ms) :
    (member_list_delta sf ms).countP SecurityWarning.is_uninitialized = 0 := by
  induction ms with
  | nil => simp [member_list_delta]
  | cons m rest ih =>
    have hrest : ∀ func : Function, ContractMember.init func ∉ rest := by
      intro func hmem
      exact h func (List.mem_cons_of_mem _ hmem)
    cases m with
    | storage fields => exact ih hrest
    | init func => exact absurd (List.mem_cons_self _ _) (h func)
    | function func =>
      rw [member_list_delta]
      simp [List.countP_append, countP_uninit_function_delta, ih hrest]
    | otherMember => exact ih hrest

/-! Membership lemmas for the storage-field and initialization sets. -/

theorem mem_hsInsert (s : List String) (x y : String) :
    y ∈ hsInsert s x ↔ y ∈ s ∨ y = x := by
  unfold hsInsert
  by_cases h : x ∈ s
  · simp only [if_pos h]
    exact ⟨fun hy => Or.inl hy, fun hy => hy.elim id (fun e => e ▸ h)⟩
  · simp [if_neg h]

theorem mem_foldl_hsInsert (fields : List StorageField) (acc : List String)
    (y : String) :
    y ∈ fields.foldl (fun s f => hsInsert s f.name) acc ↔
      y ∈ acc ∨ ∃ f ∈ fields, f.name = y := by
  induction fields generalizing acc with
  | nil => simp
  | cons f rest ih =>
    rw [List.foldl_cons, ih, mem_hsInsert]
    constructor
    · rintro ((hy | hy) | hy)
      · exact Or.inl hy
      · exact Or.inr ⟨f, List.mem_cons_self _ _, hy.symm⟩
      · obtain ⟨g, hg, hgy⟩ := hy
        exact Or.inr ⟨g, List.mem_cons_of_mem _ hg, hgy⟩
    · rintro (hy | ⟨g, hg, hgy⟩)
      · exact Or.inl (Or.inl hy)
      · rcases List.mem_cons.mp hg with rfl | hg'
        · exact Or.inl (Or.inr hgy.symm)
        · exact Or.inr ⟨g, hg', hgy⟩

theorem mem_collect_storage_fields (ms : List ContractMember) (acc : List String)
    (y : String) :
    y ∈ collect_storage_fields ms acc ↔
      y ∈ acc ∨ ∃ flds, ContractMember.storage flds ∈ ms ∧ ∃ f ∈ flds, f.name = y := by
  induction ms generalizing acc with
  | nil => simp [collect_storage_fields]
  | cons m rest ih =>
    cases m with
    | storage fields =>
      rw [collect_storage_fields, ih, mem_foldl_hsInsert]
      constructor
      · rintro ((hy | ⟨f, hf, hfy⟩) | ⟨flds, hflds, hex⟩)
        · exact Or.inl hy
        · exact Or.inr ⟨fields, List.mem_cons_self _ _, f, hf, hfy⟩
        · exact Or.inr ⟨flds, List.mem_cons_of_mem _ hflds, hex⟩
      · rintro (hy | ⟨flds, hflds, f, hf, hfy⟩)
        · exact Or.inl (Or.inl hy)
        · rcases List.mem_cons.mp hflds with heq | hflds'
          · cases heq
            exact Or.inl (Or.inr ⟨f, hf, hfy⟩)
          · exact Or.inr ⟨flds, hflds', f, hf, hfy⟩
    | init func =>
      rw [show collect_storage_fields (ContractMember.init func :: rest) acc =
          collect_storage_fields rest acc from rfl, ih]
      simp
    | function func =>
      rw [show collect_storage_fields (ContractMember.function func :: rest) acc =
          collect_storage_fields rest acc from rfl, ih]
      simp
    | otherMember =>
      rw [show collect_storage_fields (ContractMember.otherMember :: rest) acc =
          collect_storage_fields rest acc from rfl, ih]
      simp

theorem collect_initializations_cons (s : Statement) (rest : List Statement)
    (init : List String) :
    collect_initializations (s :: rest) init =
      collect_initializations rest (collect_initializations [s] init) := rfl

theorem mem_collect_initializations_singleton (s : Statement)
    (init : List String) (f : String) :
    f ∈ collect_initializations [s] init ↔
      f ∈ init ∨ is_self_assign_of s f = true := by
  unfold collect_initializations is_self_assign_of
  repeat' split
  all_goals simp_all [collect_initializations, mem_hsInsert, eq_comm]

theorem mem_collect_initializations (stmts : List Statement)
    (init : List String) (f : String) :
    f ∈ collect_initializations stmts init ↔
      f ∈ init ∨ ∃ s ∈ stmts, is_self_assign_of s f = true := by
  induction stmts generalizing init with
  | nil => simp [collect_initializations]
  | cons s rest ih =>
    rw [collect_initializations_cons, ih, mem_collect_initializations_singleton]
    constructor
    · rintro ((hy | hy) | ⟨t, ht, hty⟩)
      · exact Or.inl hy
      · exact Or.inr ⟨s, List.mem_cons_self _ _, hy⟩
      · exact Or.inr ⟨t, List.mem_cons_of_mem _ ht, hty⟩
    · rintro (hy | ⟨t, ht, hty⟩)
      · exact Or.inl (Or.inl hy)
      · rcases List.mem_cons.mp ht with rfl | ht'
        · exact Or.inl (Or.inr hty)
        · exact Or.inr ⟨t, ht', hty⟩

theorem mem_uninit_delta (initialized : List String) (sp : Span)
    (fs : List String) (f : String) (h1 : f ∈ fs) (h2 : f ∉ initialized) :
    SecurityWarning.UninitializedVariable ("Storage field \x27" ++ f ++ "\x27") sp
      ∈ uninit_delta initialized sp fs := by
  induction fs with
  | nil => cases h1
  | cons g rest ih =>
    rw [uninit_delta]
    rcases List.mem_cons.mp h1 with rfl | hmem
    · simp [h2]
    · by_cases hg : g ∈ initialized <;> simp [hg, ih hmem]

theorem mem_member_list_delta_of_init (sf : List String)
    (ms : List ContractMember) (ctor : Function) (w : SecurityWarning)
    (hmem : ContractMember.init ctor ∈ ms)
    (hw : w ∈ uninit_delta (collect_initializations ctor.body [])
      (first_stmt_span ctor.body) sf) :
    w ∈ member_list_delta sf ms := by
  induction ms with
  | nil => cases hmem
  | cons m rest ih =>
    rcases List.mem_cons.mp hmem with heq | hmem'
    · cases heq
      rw [member_list_delta]
      exact List.mem_append_left _ hw
    · cases m with
      | storage fields => exact ih hmem'
      | init func =>
        rw [member_list_delta]
        exact List.mem_append_right _ (ih hmem')
      | function func =>
        rw [member_list_delta]
        exact List.mem_append_right _ (ih hmem')
      | otherMember => exact ih hmem'

/-- `items_delta` of a program whose items are all skipped kinds is empty. -/
theorem items_delta_all_skipped (items : List Item)
    (h : items.all Item.is_skipped = true) : items_delta items = [] := by
  induction items with
  | nil => rfl
  | cons item rest ih =>
    cases item with
    | contract c => simp [Item.is_skipped] at h
    | function f => simp [Item.is_skipped] at h
    | otherItem =>
      rw [items_delta]
      exact ih (by simpa [Item.is_skipped] using h)

/-! Concrete example programs used by the closed theorems below. -/

/-- `self.<fld> = <literal>;` as a statement (the right-hand side is a
literal, a kind the analyzer ignores). -/
def self_assign_stmt (fld : String) (sp : Span) : Statement :=
  Statement.exprS
    (.binary (.fieldAccess (.identifier "self" sp) fld sp) BinaryOp.assign
      (.otherExpr sp) sp) sp

/-- `<obj>.<m>();` as a statement. -/
def ext_call_stmt (obj m : String) (sp : Span) : Statement :=
  Statement.exprS (.call (.fieldAccess (.identifier obj sp) m sp) [] sp) sp

/-- A contract declaring one storage field and containing no `Init` member. -/
def no_init_contract : Contract :=
  ⟨"Vault", [ContractMember.storage [⟨"a", "u64"⟩]]⟩

/-- A contract with storage fields `a`, `b` and a constructor assigning only
`self.a`. -/
def partial_init_contract : Contract :=
  ⟨"Token",
   [ContractMember.storage [⟨"a", "u64"⟩, ⟨"b", "u64"⟩],
    ContractMember.init ⟨"init", [self_assign_stmt "a" (Span.new 2 2)]⟩]⟩

/-- A contract with storage fields `a`, `b` and a constructor assigning both
`self.a` and `self.b`. -/
def full_init_contract : Contract :=
  ⟨"Token",
   [ContractMember.storage [⟨"a", "u64"⟩, ⟨"b", "u64"⟩],
    ContractMember.init
      ⟨"init", [self_assign_stmt "a" (Span.new 2 2),
                self_assign_stmt "b" (Span.new 3 3)]⟩]⟩

/-- The constructor that assigns `self.a` only inside an `if` branch. -/
def nested_init_ctor : Function :=
  ⟨"init",
   [Statement.ifS (Expression.otherExpr (Span.new 2 2))
      [self_assign_stmt "a" (Span.new 3 3)] none (Span.new 2 2)]⟩

/-- A contract whose constructor assigns its only storage field solely
inside a nested `if` branch. -/
def nested_init_contract : Contract :=
  ⟨"Vault", [ContractMember.storage [⟨"a", "u64"⟩],
             ContractMember.init nested_init_ctor]⟩

/-- The callee `a.b().c`: a field access whose object is itself a call
(a compound expression, not a plain identifier). -/
def chained_call_callee : Expression :=
  Expression.fieldAccess
    (Expression.call
      (Expression.fieldAccess (Expression.identifier "a" (Span.new 1 1)) "b"
        (Span.new 1 1))
      [] (Span.new 1 1))
    "c" (Span.new 1 1)

/-- The chained method call `a.b().c()`. -/
def chained_call : Expression :=
  Expression.call chained_call_callee [] (Span.new 1 1)

/-! The claims. -/

/-- C1 (counterexample): `no_init_contract` declares exactly one storage
field (`a`) and has no `Init` member, yet `analyze_program` produces no
warning at all — not one `UninitializedVariable` per declared field as the
claim states. -/
theorem C1_counterexample_no_init_contract :
    collect_storage_fields no_init_contract.members [] = ["a"] ∧
    (SecurityAnalyzer.new.analyze_program
        ⟨[Item.contract no_init_contract]⟩).get_warnings = [] := by
  constructor <;> rfl

/-- C1 (amended): a contract with no `Init` member among its members yields
no `UninitializedVariable` warning whatsoever from `analyze_contract`: the
initialization-coverage check runs only for `Init` members, so absence of a
constructor silently disables it. -/
theorem C1_amended_no_init_member_no_uninitialized (a : SecurityAnalyzer)
    (c : Contract)
    (h : ∀ func : Function, ContractMember.init func ∉ c.members) :
    ((a.analyze_contract c).get_warnings).countP SecurityWarning.is_uninitialized =
      (a.get_warnings).countP SecurityWarning.is_uninitialized := by
  rw [analyze_contract_eq]
  simp [SecurityAnalyzer.get_warnings, contract_delta, List.countP_append,
    countP_uninit_member_list_delta_no_init _ c.members h]

/-- C1 (witness for the amended claim): the amended statement evaluated on
`no_init_contract`. -/
theorem C1_amended_witness :
    ((SecurityAnalyzer.new.analyze_contract no_init_contract).get_warnings).countP
        SecurityWarning.is_uninitialized =
      (SecurityAnalyzer.new.get_warnings).countP SecurityWarning.is_uninitialized :=
  C1_amended_no_init_member_no_uninitialized SecurityAnalyzer.new no_init_contract
    (fun func h => by simp [no_init_contract] at h)

/-- C2: for a body `obj.m(); self.fld = 1;` with `obj ≠ "self"`, analyzing
the function produces exactly one `PotentialReentrancy` warning; with the
two statements in the opposite order it produces zero. -/
theorem C2_reentrancy_order (fname obj m fld : String) (sp : Span)
    (h : obj ≠ "self") :
    ((SecurityAnalyzer.new.analyze_function
        ⟨fname, [ext_call_stmt obj m sp, self_assign_stmt fld sp]⟩).get_warnings).countP
        SecurityWarning.is_reentrancy = 1 ∧
    ((SecurityAnalyzer.new.analyze_function
        ⟨fname, [self_assign_stmt fld sp, ext_call_stmt obj m sp]⟩).get_warnings).countP
        SecurityWarning.is_reentrancy = 0 := by
  constructor <;>
  · rw [analyze_function_eq]
    simp [SecurityAnalyzer.get_warnings, SecurityAnalyzer.new, function_delta,
      block_delta, stmt_delta, expr_delta, expr_list_delta, sets_flag,
      sets_flag_stmt, sets_flag_list, qualifying_callee, reentrancy_delta,
      arith_delta, ext_call_stmt, self_assign_stmt,
      SecurityWarning.is_reentrancy, h, List.countP_append, List.countP_cons]

/-- C2 (witness): the order-sensitivity statement evaluated on
`other.call(); self.balance = 1;` inside `withdraw`. -/
theorem C2_reentrancy_order_witness :
    ((SecurityAnalyzer.new.analyze_function
        ⟨"withdraw", [ext_call_stmt "other" "call" (Span.new 1 1),
                      self_assign_stmt "balance" (Span.new 1 1)]⟩).get_warnings).countP
        SecurityWarning.is_reentrancy = 1 ∧
    ((SecurityAnalyzer.new.analyze_function
        ⟨"withdraw", [self_assign_stmt "balance" (Span.new 1 1),
                      ext_call_stmt "other" "call" (Span.new 1 1)]⟩).get_warnings).countP
        SecurityWarning.is_reentrancy = 0 :=
  C2_reentrancy_order "withdraw" "other" "call" "balance" (Span.new 1 1) (by decide)

/-- C3: with storage fields `{a, b}` and a constructor assigning only
`self.a`, exactly one `UninitializedVariable` warning is produced and it
names `b`; assigning both fields produces zero. -/
theorem C3_constructor_initialization_coverage :
    ((SecurityAnalyzer.new.analyze_program
        ⟨[Item.contract partial_init_contract]⟩).get_warnings).filter
        SecurityWarning.is_uninitialized =
      [SecurityWarning.UninitializedVariable "Storage field \x27b\x27" (Span.new 2 2)] ∧
    ((SecurityAnalyzer.new.analyze_program
        ⟨[Item.contract full_init_contract]⟩).get_warnings).filter
        SecurityWarning.is_uninitialized = [] := by
  constructor <;> rfl

/-- C4: analyzing a function appends exactly one `UncheckedArithmetic`
warning per `Add`/`Sub`/`Mul` binary node its traversal visits, and appends
none at all when the function name starts with `checked_` or `safe_` — the
name prefix is the only suppression mechanism. -/
theorem C4_unchecked_arithmetic_count (a : SecurityAnalyzer) (f : Function) :
    ((a.analyze_function f).get_warnings).countP SecurityWarning.is_unchecked =
      (a.get_warnings).countP SecurityWarning.is_unchecked +
        (if f.name.startsWith "checked_" || f.name.startsWith "safe_" then 0
         else arith_count_block f.body) := by
  rw [analyze_function_eq]
  simp [SecurityAnalyzer.get_warnings, List.countP_append,
    countP_unchecked_function_delta]

/-- C5: the constructor scan marks a field initialized only via a top-level
`self.<field> = _` statement: if no top-level statement of the `Init`
member's body has that shape for a declared field (assignments nested inside
`if`/`while`/`for` bodies do not count), the field is reported
uninitialized. -/
theorem C5_top_level_initialization_scan (a : SecurityAnalyzer) (c : Contract)
    (ctor : Function) (flds : List StorageField) (fld : StorageField)
    (h1 : ContractMember.init ctor ∈ c.members)
    (h2 : ContractMember.storage flds ∈ c.members)
    (h3 : fld ∈ flds)
    (h4 : ∀ s ∈ ctor.body, is_self_assign_of s fld.name = false) :
    SecurityWarning.UninitializedVariable
        ("Storage field \x27" ++ fld.name ++ "\x27") (first_stmt_span ctor.body)
      ∈ (a.analyze_contract c).get_warnings := by
  rw [analyze_contract_eq]
  simp only [SecurityAnalyzer.get_warnings, contract_delta]
  refine List.mem_append_right _ ?_
  refine mem_member_list_delta_of_init _ _ ctor _ h1 ?_
  refine mem_uninit_delta _ _ _ _ ?_ ?_
  · exact (mem_collect_storage_fields _ _ _).mpr (Or.inr ⟨flds, h2, fld, h3, rfl⟩)
  · intro hmem
    rcases (mem_collect_initializations _ _ _).mp hmem with hnil | ⟨s, hs, hassign⟩
    · exact absurd hnil (List.not_mem_nil _)
    · rw [h4 s hs] at hassign
      cases hassign

/-- C5 (witness): the top-level-only scan evaluated on a contract whose
constructor assigns its only field solely inside an `if` branch. -/
theorem C5_top_level_initialization_scan_witness :
    SecurityWarning.UninitializedVariable "Storage field \x27a\x27" (Span.new 2 2)
      ∈ (SecurityAnalyzer.new.analyze_contract nested_init_contract).get_warnings :=
  C5_top_level_initialization_scan SecurityAnalyzer.new nested_init_contract
    nested_init_ctor [⟨"a", "u64"⟩] ⟨"a", "u64"⟩
    (by simp [nested_init_contract])
    (by simp [nested_init_contract])
    (by simp)
    (by decide)

/-- C6: `get_warnings` is the pure projection of the accumulator, and
running `analyze_program` twice on the same instance yields exactly the
concatenation of the (identical) warnings of each run appended to whatever
was already accumulated — no deduplication, no reset. -/
theorem C6_get_warnings_accumulation (a : SecurityAnalyzer) (p : Program) :
    a.get_warnings = a.warnings ∧
    ((a.analyze_program p).analyze_program p).get_warnings =
      a.get_warnings ++ (SecurityAnalyzer.new.analyze_program p).get_warnings
        ++ (SecurityAnalyzer.new.analyze_program p).get_warnings := by
  refine ⟨rfl, ?_⟩
  rw [analyze_program_eq, analyze_program_eq, analyze_program_eq]
  simp [SecurityAnalyzer.get_warnings, SecurityAnalyzer.new, List.append_assoc]

/-- C7: the diagnostic codes: `SEC-002` for `PotentialReentrancy`, `SEC-004`
for `UninitializedVariable`, and the shared `SEC-003` for both
`PotentialOverflow` and `UncheckedArithmetic`. -/
theorem C7_warning_codes (op nm msg : String) (sp : Span) :
    (SecurityWarning.PotentialReentrancy msg sp).code = "SEC-002" ∧
    (SecurityWarning.UninitializedVariable nm sp).code = "SEC-004" ∧
    (SecurityWarning.PotentialOverflow op sp).code = "SEC-003" ∧
    (SecurityWarning.UncheckedArithmetic op sp).code = "SEC-003" :=
  ⟨rfl, rfl, rfl, rfl⟩

/-- C8: the reentrancy flag is function-scoped and monotonic: the result of
`analyze_function` is independent of the incoming flag, the flag is reset to
`false` (and the function name installed) at entry, and once the flag is
`true` no statement or expression traversal ever returns it to `false`. -/
theorem C8_reentrancy_flag_function_scoped (a : SecurityAnalyzer) (f : Function)
    (b : Bool) (s : Statement) (e : Expression) :
    ({ a with external_call_seen := b } : SecurityAnalyzer).analyze_function f =
        a.analyze_function f ∧
    a.analyze_function f =
      { (SecurityAnalyzer.mk a.warnings false (some f.name)).analyze_block f.body
          with current_function := none } ∧
    (({ a with external_call_seen := true } : SecurityAnalyzer).analyze_statement
        s).external_call_seen = true ∧
    (({ a with external_call_seen := true } : SecurityAnalyzer).analyze_expression
        e).external_call_seen = true := by
  refine ⟨rfl, rfl, ?_, ?_⟩
  · rw [analyze_statement_eq]
    simp
  · rw [analyze_expression_eq]
    simp

/-- C9: a program whose items are all of skipped kinds (neither `Contract`
nor `Function`) produces no warnings. -/
theorem C9_skipped_items_no_warnings (a : SecurityAnalyzer) (p : Program)
    (h : p.items.all Item.is_skipped = true) :
    (a.analyze_program p).get_warnings = a.get_warnings := by
  rw [analyze_program_eq]
  simp [SecurityAnalyzer.get_warnings, items_delta_all_skipped p.items h]

/-- C9 (witness): the skipped-items statement evaluated on a two-item
program of unhandled kinds. -/
theorem C9_skipped_items_no_warnings_witness :
    (SecurityAnalyzer.new.analyze_program
        ⟨[Item.otherItem, Item.otherItem]⟩).get_warnings =
      SecurityAnalyzer.new.get_warnings :=
  C9_skipped_items_no_warnings SecurityAnalyzer.new
    ⟨[Item.otherItem, Item.otherItem]⟩ (by decide)

/-- C10 (counterexample): the chained call `a.b().c()` has a compound callee
object (`a.b()`, a call, not a plain identifier), yet analyzing it from a
cleared state sets `external_call_seen`: the nested call `a.b()` reached by
recursion qualifies, so such a call does not leave the flag unchanged. -/
theorem C10_counterexample_chained_call :
    qualifying_callee chained_call_callee = false ∧
    SecurityAnalyzer.new.external_call_seen = false ∧
    (SecurityAnalyzer.new.analyze_expression chained_call).external_call_seen = true := by
  refine ⟨rfl, rfl, rfl⟩

/-- C10 (amended): the flag update attached to a `Call` node itself fires
exactly when the callee is a field access on a plain identifier other than
`self` (`qualifying_callee`); the flag after a full traversal is the
incoming flag or-ed with `sets_flag`, which is true iff some call node
reached by the traversal — possibly a nested one — has a qualifying
callee. -/
theorem C10_amended_flag_characterization (a : SecurityAnalyzer)
    (e fn : Expression) :
    (a.analyze_expression e).external_call_seen =
        (a.external_call_seen || sets_flag e) ∧
    a.call_flag_update fn =
      (if qualifying_callee fn = true then { a with external_call_seen := true }
       else a) := by
  constructor
  · rw [analyze_expression_eq]
  · rw [call_flag_update_eq]
    by_cases h : qualifying_callee fn = true <;> simp [h]

end SwiftSC
